import Mathlib

/-!
Verification of the vessel state synchronization engine of the AIS viewer
mobile application: the vessel store (contexts/VesselContext), the
viewport-driven poll controller (components/VesselMap) and the geospatial
tiling utility (utils/geohash).  JavaScript numbers are embedded as
rationals, `Map<number, Vessel>` as an insertion-ordered association list
with unique keys, and the asynchronous fetch of the map component as
explicit begin/resolve phases acting on a component state record.
-/

/-- A tracked vessel record (the Vessel type used by the store and the map
component): integer identifier `mmsi`, position, optional course, speed and
ship type, and the server-set `last_updated` timestamp string. -/
structure Vessel where
  mmsi : Nat
  latitude : Rat
  longitude : Rat
  course : Option Rat := none
  speed : Option Rat := none
  ship_type : Option Rat := none
  last_updated : String
  deriving DecidableEq

/-- The store's `Map<number, Vessel>`: an insertion-ordered association list.
All states reachable through the store operations have pairwise distinct
keys, mirroring the key uniqueness of a JavaScript Map. -/
abbrev VMap := List (Nat × Vessel)

/-- `Map.set(k, v)` on the association-list model: replace the (unique)
existing binding of `k` in place, keeping its position, or append a new
binding at the end — exactly the insertion-order semantics of a JavaScript
Map. -/
def mapSet : VMap → Nat → Vessel → VMap
  | [], k, v => [(k, v)]
  | p :: m, k, v => if p.1 = k then (k, v) :: m else p :: mapSet m k v

/-- `updateVessel` of VesselContext: `newVessels.set(vessel.mmsi, vessel)`
on a copy of the previous map (the copy is implicit in the functional
embedding). -/
def updateVessel (v : Vessel) (m : VMap) : VMap :=
  mapSet m v.mmsi v

/-- `updateMultipleVessels` of VesselContext: one new snapshot obtained by
`set(vessel.mmsi, vessel)` for each element of the list, in order. -/
def updateMultipleVessels (vs : List Vessel) (m : VMap) : VMap :=
  vs.foldl (fun acc v => mapSet acc v.mmsi v) m

/-- `STALE_VESSEL_TIMEOUT_MS = 120000` of config.ts. -/
def STALE_VESSEL_TIMEOUT_MS : Int := 120000

/-- Leap-year test of the proleptic Gregorian calendar (as used by the
JavaScript Date object for ISO-8601 UTC strings). -/
def isLeap (y : Nat) : Bool :=
  y % 4 == 0 && (y % 100 != 0 || y % 400 == 0)

/-- Days in month `m` (1..12) of a (non-)leap year. -/
def daysInMonth (leap : Bool) (m : Nat) : Nat :=
  match m with
  | 1 => 31
  | 2 => if leap then 29 else 28
  | 3 => 31
  | 4 => 30
  | 5 => 31
  | 6 => 30
  | 7 => 31
  | 8 => 31
  | 9 => 30
  | 10 => 31
  | 11 => 30
  | 12 => 31
  | _ => 0

/-- Days of the months strictly before month `m` in one year. -/
def daysBeforeMonth (leap : Bool) (m : Nat) : Nat :=
  (List.range m).foldl (fun acc i => acc + daysInMonth leap i) 0

/-- Days from 1970-01-01 to the start of year `y` (for `y ≥ 1970`). -/
def daysBeforeYear (y : Nat) : Nat :=
  (List.range (y - 1970)).foldl
    (fun acc i => acc + (if isLeap (1970 + i) then 366 else 365)) 0

/-- Value of a decimal digit character, none when not a digit. -/
def digitVal (c : Char) : Option Nat :=
  if c.isDigit then some (c.toNat - 48) else none

/-- Two-digit decimal number from two characters. -/
def num2 (a b : Char) : Option Nat := do
  let x ← digitVal a
  let y ← digitVal b
  pure (10 * x + y)

/-- Four-digit decimal number from four characters. -/
def num4 (a b c d : Char) : Option Nat := do
  let x ← num2 a b
  let y ← num2 c d
  pure (100 * x + y)

/-- Models the JavaScript expression `new Date(s).getTime()` (used by
`removeStaleVessels` on `vessel.last_updated`) for the UTC ISO-8601 shape
`YYYY-MM-DDTHH:MM:SSZ` this system exchanges, returning epoch milliseconds;
`none` models `NaN`: any other shape, an out-of-range field, or a year
before 1970 (outside the system's domain) fails to parse. -/
def parseTime (s : String) : Option Int :=
  match s.data with
  | [y1, y2, y3, y4, a1, o1, o2, a2, d1, d2, a3, h1, h2, a4, i1, i2, a5, e1, e2, a6] =>
    if a1 = '-' ∧ a2 = '-' ∧ a3 = 'T' ∧ a4 = ':' ∧ a5 = ':' ∧ a6 = 'Z' then do
      let y ← num4 y1 y2 y3 y4
      let mo ← num2 o1 o2
      let d ← num2 d1 d2
      let h ← num2 h1 h2
      let mi ← num2 i1 i2
      let se ← num2 e1 e2
      if 1970 ≤ y ∧ 1 ≤ mo ∧ mo ≤ 12 ∧ 1 ≤ d ∧ d ≤ daysInMonth (isLeap y) mo ∧
          h < 24 ∧ mi < 60 ∧ se < 60 then
        let days := daysBeforeYear y + daysBeforeMonth (isLeap y) mo + (d - 1)
        pure ((((((days * 24 + h) * 60 + mi) * 60 + se) * 1000 : Nat) : Int))
      else none
    else none
  | _ => none

/-- `removeStaleVessels` of VesselContext with `Date.now()` and the timeout
constant as explicit parameters: keeps exactly the vessels whose
`new Date(last_updated).getTime()` is strictly greater than
`now - timeout` (the source's `vesselTime > staleThreshold`); an unparsable
timestamp (`NaN`) never compares greater, so the vessel is dropped. -/
def removeStaleVessels (now timeout : Int) (m : VMap) : VMap :=
  m.filter fun p =>
    match parseTime p.2.last_updated with
    | some t => decide (now - timeout < t)
    | none => false

/-- Keys of a store snapshot, in insertion order. -/
def keys (m : VMap) : List Nat :=
  m.map Prod.fst

/-- Geohash base32 alphabet of the ngeohash collaborator. -/
def geohashBase32 : List Char := "0123456789bcdefghjkmnpqrstuvwxyz".toList

/-- Modelled from the spec: the external `ngeohash.encode` collaborator
(§4.3 `encode(lat, lon, precision)` — deterministic fixed-length bucket
identifier), realised by the standard geohash bisection: one bit per step,
longitude on even steps, latitude on odd steps, five bits per base32
character.  `fuel` counts the remaining bits (`5 * precision` at the
start). -/
def encodeLoop : Nat → Rat → Rat → Rat → Rat → Rat → Rat → Bool → Nat → List Char → List Char
  | 0, _, _, _, _, _, _, _, _, acc => acc
  | fuel + 1, lat, lon, latLo, latHi, lonLo, lonHi, evenBit, idx, acc =>
    let next :=
      if evenBit then
        let mid := (lonLo + lonHi) / 2
        if mid < lon then (idx * 2 + 1, latLo, latHi, mid, lonHi)
        else (idx * 2, latLo, latHi, lonLo, mid)
      else
        let mid := (latLo + latHi) / 2
        if mid < lat then (idx * 2 + 1, mid, latHi, lonLo, lonHi)
        else (idx * 2, latLo, mid, lonLo, lonHi)
    if fuel % 5 = 0 then
      encodeLoop fuel lat lon next.2.1 next.2.2.1 next.2.2.2.1 next.2.2.2.2 (!evenBit) 0
        (acc ++ [geohashBase32.getD next.1 '0'])
    else
      encodeLoop fuel lat lon next.2.1 next.2.2.1 next.2.2.2.1 next.2.2.2.2 (!evenBit) next.1 acc

/-- `encodeGeohash(latitude, longitude, precision = 5)` of utils/geohash.ts:
delegates to `ngeohash.encode`. -/
def encodeGeohash (latitude longitude : Rat) (precision : Nat := 5) : String :=
  String.mk (encodeLoop (5 * precision) latitude longitude (-90) 90 (-180) 180 true 0 [])

/-- Number of iterations of the source loop
`for (let x = lo; x <= hi; x += step)` over exact numbers: none when
`lo > hi`, otherwise `⌊(hi - lo) / step⌋ + 1` (for `step > 0`). -/
def sampleCount (lo hi step : Rat) : Nat :=
  if lo ≤ hi then (⌊(hi - lo) / step⌋).toNat + 1 else 0

/-- The values the loop variable takes: `lo, lo + step, …` while `≤ hi`. -/
def samples (lo hi step : Rat) : List Rat :=
  (List.range (sampleCount lo hi step)).map fun i => lo + (i : Rat) * step

/-- The JavaScript `Set` insertion fold: append an element unless already
present (first occurrence kept, insertion order preserved), as
`Array.from(set)` observes it. -/
def insertDedup (l : List String) : List String :=
  l.foldl (fun acc h => if h ∈ acc then acc else acc ++ [h]) []

/-- `calculateGeohashes(minLon, minLat, maxLon, maxLat, precision = 5)` of
utils/geohash.ts: sample the rectangle on a 0.045-degree grid from the
minimum corner, encode each in-domain sample point, and collect the hashes
into a Set read back in insertion order. -/
def calculateGeohashes (minLon minLat maxLon maxLat : Rat) (precision : Nat := 5) : List String :=
  insertDedup <|
    (samples minLat maxLat (0.045 : Rat)).flatMap fun lat =>
      (samples minLon maxLon (0.045 : Rat)).filterMap fun lon =>
        if -90 ≤ lat ∧ lat ≤ 90 ∧ -180 ≤ lon ∧ lon ≤ 180 then
          some (encodeGeohash lat lon precision)
        else none

/-- `MIN_ZOOM_LEVEL = 12` of config.ts. -/
def MIN_ZOOM_LEVEL : Rat := 12

/-- `POLL_INTERVAL_MS = 10000` of config.ts. -/
def POLL_INTERVAL_MS : Nat := 10000

/-- The viewport bounding box (types Bbox). -/
structure Bbox where
  minLon : Rat
  minLat : Rat
  maxLon : Rat
  maxLat : Rat
  deriving DecidableEq

/-- A response of the external fetch collaborator
(`VesselApiService.fetchVessels`). -/
structure FetchResponse where
  vessels : List Vessel
  server_time : String
  is_delta : Bool
  deriving DecidableEq

/-- The VesselMap component state the claims observe: the store snapshot
and cursor of VesselContext plus the component's own `zoom`, `bbox`,
`isLoading` and `error` state. -/
structure ComponentState where
  vessels : VMap
  lastServerTime : Option String
  zoom : Rat
  bbox : Option Bbox
  isLoading : Bool
  error : Option String
  deriving DecidableEq

/-- `clearAll` of VesselContext: empty map, cursor null. -/
def clearAll (s : ComponentState) : ComponentState :=
  { s with vessels := [], lastServerTime := none }

/-- The guard at the head of `fetchVessels`:
`if (!bbox || zoom < MIN_ZOOM_LEVEL) return` — the fetch proceeds exactly
when a bbox is known and the zoom is at least the threshold. -/
def fetchEligible (s : ComponentState) : Bool :=
  s.bbox.isSome && decide (MIN_ZOOM_LEVEL ≤ s.zoom)

/-- The synchronous prefix of `fetchVessels` before its `await`:
`setIsLoading(true); setError(null)`. -/
def fetchBegin (s : ComponentState) : ComponentState :=
  { s with isLoading := true, error := none }

/-- The continuation of `fetchVessels` after its `await` resolves
successfully, applied to the component state current at resolution time:
merge the vessel list when non-empty, then unconditionally write the
response's `server_time` to the cursor; `finally` clears `isLoading`. -/
def fetchResolveSuccess (s : ComponentState) (r : FetchResponse) : ComponentState :=
  { s with
    vessels :=
      if 0 < r.vessels.length then updateMultipleVessels r.vessels s.vessels else s.vessels,
    lastServerTime := some r.server_time,
    isLoading := false }

/-- The `catch` continuation of `fetchVessels` when the collaborator
rejects: set the user-visible error; `finally` clears `isLoading`. -/
def fetchResolveFailure (s : ComponentState) : ComponentState :=
  { s with error := some ("Failed to fetch vessels"), isLoading := false }

/-- `handleRegionDidChange` of VesselMap: record the new zoom and bounding
box, and call `clearAll` exactly when the new zoom is below
`MIN_ZOOM_LEVEL`. -/
def handleRegionDidChange (s : ComponentState) (newZoom : Rat) (newBbox : Bbox) : ComponentState :=
  let s1 := { s with zoom := newZoom, bbox := some newBbox }
  if newZoom < MIN_ZOOM_LEVEL then clearAll s1 else s1

/-- The polling interval handle (`pollingIntervalRef`): the id of the
currently running interval, if any, and a generation counter so that each
`setInterval` call yields a fresh id. -/
structure TimerState where
  current : Option Nat
  nextId : Nat
  deriving DecidableEq

/-- One run of the polling `useEffect` of VesselMap after its dependency
list `[bbox, zoom, fetchVessels, removeStaleVessels]` changed: React first
runs the previous run's cleanup (`clearInterval`), then the body, which
either stops (zoom below threshold or no bbox) or fetches immediately and
calls `setInterval`, storing a fresh interval id in the ref. -/
def pollingEffectCycle (zoom : Rat) (bbox : Option Bbox) (t : TimerState) : TimerState :=
  let t1 : TimerState := { t with current := none }
  if zoom < MIN_ZOOM_LEVEL ∨ bbox = none then t1
  else { current := some t1.nextId, nextId := t1.nextId + 1 }

/-- A store operation of VesselContext as exercised by claim C2: a single
merge (`updateVessel`) or a bulk merge (`updateMultipleVessels`). -/
inductive StoreOp where
  | merge (v : Vessel)
  | mergeMany (vs : List Vessel)

/-- Apply one store operation to a snapshot. -/
def applyOp (m : VMap) : StoreOp → VMap
  | .merge v => updateVessel v m
  | .mergeMany vs => updateMultipleVessels vs m

/-- Apply a sequence of store operations to the initially empty store. -/
def applyOps (ops : List StoreOp) : VMap :=
  ops.foldl applyOp []

/-- The vessels a sequence of operations merges, in merge order. -/
def flattenOps : List StoreOp → List Vessel
  | [] => []
  | .merge v :: ops => v :: flattenOps ops
  | .mergeMany vs :: ops => vs ++ flattenOps ops

/-- The last vessel of `vs` carrying identifier `k`, if any: a match later
in the list wins over any earlier one. -/
def lastMergedWith (k : Nat) : List Vessel → Option Vessel
  | [] => none
  | v :: vs => (lastMergedWith k vs).or (if v.mmsi = k then some v else none)

/-- `Map.get(k)` on the association-list model: the vessel bound to `k`. -/
def getVessel : VMap → Nat → Option Vessel
  | [], _ => none
  | p :: m, k => if p.1 = k then some p.2 else getVessel m k

/-- The vessels one store operation merges, in order. -/
def opVessels : StoreOp → List Vessel
  | .merge v => [v]
  | .mergeMany vs => vs

theorem applyOp_eq_updateMultiple (m : VMap) (op : StoreOp) :
    applyOp m op = updateMultipleVessels (opVessels op) m := by
  cases op <;> rfl

theorem flattenOps_cons (op : StoreOp) (ops : List StoreOp) :
    flattenOps (op :: ops) = opVessels op ++ flattenOps ops := by
  cases op <;> rfl

theorem getVessel_mapSet (m : VMap) (k k' : Nat) (v : Vessel) :
    getVessel (mapSet m k v) k' = if k' = k then some v else getVessel m k' := by
  induction m with
  | nil =>
    by_cases h : k' = k
    · simp [mapSet, getVessel, h]
    · simp [mapSet, getVessel, h, Ne.symm h]
  | cons p m ih =>
    by_cases hpk : p.1 = k
    · by_cases h : k' = k
      · simp [mapSet, hpk, getVessel, h]
      · simp [mapSet, hpk, getVessel, h, Ne.symm h]
    · by_cases h : k' = k
      · subst h
        simp [mapSet, hpk, getVessel, ih, Ne.symm hpk]
      · simp [mapSet, hpk, getVessel, ih, h]

theorem mem_keys_mapSet (m : VMap) (k : Nat) (v : Vessel) (a : Nat) :
    a ∈ keys (mapSet m k v) ↔ a ∈ keys m ∨ a = k := by
  induction m with
  | nil => simp [mapSet, keys, eq_comm]
  | cons p m ih =>
    by_cases hpk : p.1 = k
    · subst hpk
      simp [mapSet, keys]
      tauto
    · simp [mapSet, hpk, keys] at ih ⊢
      rw [ih]
      tauto

theorem nodup_keys_mapSet (m : VMap) (k : Nat) (v : Vessel) (h : (keys m).Nodup) :
    (keys (mapSet m k v)).Nodup := by
  induction m with
  | nil => simp [mapSet, keys]
  | cons p m ih =>
    rw [keys, List.map_cons, List.nodup_cons] at h
    by_cases hpk : p.1 = k
    · subst hpk
      simpa [mapSet, keys, List.nodup_cons] using h
    · rw [mapSet, if_neg hpk, keys, List.map_cons, List.nodup_cons]
      refine ⟨?_, ih h.2⟩
      rw [show (mapSet m k v).map Prod.fst = keys (mapSet m k v) from rfl, mem_keys_mapSet]
      push_neg
      exact ⟨h.1, hpk⟩

theorem nodup_keys_updateMultipleVessels (vs : List Vessel) (m : VMap)
    (h : (keys m).Nodup) : (keys (updateMultipleVessels vs m)).Nodup := by
  induction vs generalizing m with
  | nil => exact h
  | cons v vs ih =>
    rw [updateMultipleVessels, List.foldl_cons]
    exact ih (mapSet m v.mmsi v) (nodup_keys_mapSet m v.mmsi v h)

theorem nodup_keys_foldl_applyOp (ops : List StoreOp) (m : VMap)
    (h : (keys m).Nodup) : (keys (ops.foldl applyOp m)).Nodup := by
  induction ops generalizing m with
  | nil => exact h
  | cons op ops ih =>
    rw [List.foldl_cons, applyOp_eq_updateMultiple]
    exact ih _ (nodup_keys_updateMultipleVessels (opVessels op) m h)

theorem getVessel_updateMultipleVessels (vs : List Vessel) (m : VMap) (k : Nat) :
    getVessel (updateMultipleVessels vs m) k = (lastMergedWith k vs).or (getVessel m k) := by
  induction vs generalizing m with
  | nil => rfl
  | cons v vs ih =>
    rw [updateMultipleVessels, List.foldl_cons,
      show vs.foldl (fun acc v => mapSet acc v.mmsi v) (mapSet m v.mmsi v) =
        updateMultipleVessels vs (mapSet m v.mmsi v) from rfl, ih,
      getVessel_mapSet]
    simp only [lastMergedWith, Option.or_assoc]
    by_cases h : v.mmsi = k
    · subst h
      simp
    · simp [h, Ne.symm h]

theorem lastMergedWith_append (k : Nat) (vs1 vs2 : List Vessel) :
    lastMergedWith k (vs1 ++ vs2) = (lastMergedWith k vs2).or (lastMergedWith k vs1) := by
  induction vs1 with
  | nil => simp [lastMergedWith]
  | cons v vs1 ih =>
    simp only [List.cons_append, lastMergedWith, List.append_eq, ih, Option.or_assoc]

theorem getVessel_foldl_applyOp (ops : List StoreOp) (m : VMap) (k : Nat) :
    getVessel (ops.foldl applyOp m) k =
      (lastMergedWith k (flattenOps ops)).or (getVessel m k) := by
  induction ops generalizing m with
  | nil => rfl
  | cons op ops ih =>
    rw [List.foldl_cons, applyOp_eq_updateMultiple, ih, flattenOps_cons]
    rw [getVessel_updateMultipleVessels, ← Option.or_assoc]
    congr 1
    rw [lastMergedWith_append]

/-- C2: for every sequence of merge / bulk-merge operations applied to the
initially empty store, the snapshot holds at most one record per identifier
(its key list has no duplicate), and the record found for an identifier is
exactly the last record merged with that identifier, with no regard to the
records' timestamps. -/
theorem store_replace_by_key (ops : List StoreOp) :
    (keys (applyOps ops)).Nodup ∧
    ∀ k, getVessel (applyOps ops) k = lastMergedWith k (flattenOps ops) := by
  constructor
  · exact nodup_keys_foldl_applyOp ops [] (by simp [keys])
  · intro k
    rw [applyOps, getVessel_foldl_applyOp]
    simp [getVessel]

/-- C10: the bulk merge of the empty vessel list leaves the snapshot
untouched: the very same map, hence the same binding for every
identifier. -/
theorem mergeMany_nil_identity (m : VMap) :
    updateMultipleVessels [] m = m ∧
    ∀ k, getVessel (updateMultipleVessels [] m) k = getVessel m k :=
  ⟨rfl, fun _ => rfl⟩

theorem mem_removeStaleVessels (now timeout : Int) (m : VMap) (p : Nat × Vessel) :
    p ∈ removeStaleVessels now timeout m ↔
      p ∈ m ∧ ∃ t, parseTime p.2.last_updated = some t ∧ now - timeout < t := by
  unfold removeStaleVessels
  rw [List.mem_filter]
  constructor
  · rintro ⟨hm, hc⟩
    refine ⟨hm, ?_⟩
    cases h : parseTime p.2.last_updated with
    | none => rw [h] at hc; simp at hc
    | some t =>
      rw [h] at hc
      simp only [decide_eq_true_eq] at hc
      exact ⟨t, rfl, hc⟩
  · rintro ⟨hm, t, ht, hlt⟩
    refine ⟨hm, ?_⟩
    rw [ht]
    simpa using hlt

/-- The vessel of the staleness scenarios: merged with
`last_updated = 2024-01-01T00:00:00Z`, which parses to epoch millisecond
1704067200000. -/
def vesselT0 : Vessel :=
  { mmsi := 100, latitude := 10, longitude := 20, last_updated := "2024-01-01T00:00:00Z" }

/-- C3, counterexample: a vessel whose age is exactly the timeout
(`now - parse(last_updated) = 120000 = STALE_VESSEL_TIMEOUT_MS`) is claimed
retained, but the sweep keeps only strictly newer vessels
(`vesselTime > staleThreshold`), so the store comes back empty. -/
theorem evict_at_exact_timeout_evicts :
    parseTime vesselT0.last_updated = some 1704067200000 ∧
    (1704067320000 : Int) - 1704067200000 = STALE_VESSEL_TIMEOUT_MS ∧
    removeStaleVessels 1704067320000 STALE_VESSEL_TIMEOUT_MS [(100, vesselT0)] = [] := by
  refine ⟨by decide, by decide, by decide⟩

/-- C3, amended: `evictStale(now, timeout)` keeps exactly the entities whose
parsed `last_updated` satisfies `now - parse(last_updated) < timeout`
(strict, so an entity exactly at the timeout is evicted); a 110-second-old
entity survives a 120000 ms timeout and a 125-second-old one does not. -/
theorem evictStale_keeps_strictly_fresh :
    (∀ (m : VMap) (now timeout : Int) (k : Nat) (v : Vessel),
      (k, v) ∈ removeStaleVessels now timeout m ↔
        (k, v) ∈ m ∧ ∃ t, parseTime v.last_updated = some t ∧ now - t < timeout) ∧
    removeStaleVessels 1704067310000 STALE_VESSEL_TIMEOUT_MS [(100, vesselT0)] =
      [(100, vesselT0)] ∧
    removeStaleVessels 1704067325000 STALE_VESSEL_TIMEOUT_MS [(100, vesselT0)] = [] := by
  refine ⟨?_, by decide, by decide⟩
  intro m now timeout k v
  rw [mem_removeStaleVessels]
  constructor
  · rintro ⟨hm, t, ht, hlt⟩
    exact ⟨hm, t, ht, by omega⟩
  · rintro ⟨hm, t, ht, hlt⟩
    exact ⟨hm, t, ht, by omega⟩

/-- C7: an entity whose `last_updated` fails to parse (`NaN` date) is
excluded by every staleness sweep, whatever the sweep time and timeout: it
never appears in the post-sweep snapshot. -/
theorem malformed_timestamp_always_evicted (now timeout : Int) (m : VMap) (k : Nat)
    (v : Vessel) (h : parseTime v.last_updated = none) :
    (k, v) ∉ removeStaleVessels now timeout m := by
  intro hmem
  rcases (mem_removeStaleVessels now timeout m (k, v)).mp hmem with ⟨-, t, ht, -⟩
  rw [h] at ht
  cases ht

/-- A vessel with an unparsable timestamp. -/
def vesselBad : Vessel :=
  { mmsi := 101, latitude := 0, longitude := 0, last_updated := "not-a-date" }

theorem malformed_timestamp_always_evicted_witness :
    (101, vesselBad) ∉
      removeStaleVessels 1704067200000 STALE_VESSEL_TIMEOUT_MS [(101, vesselBad)] :=
  malformed_timestamp_always_evicted 1704067200000 STALE_VESSEL_TIMEOUT_MS
    [(101, vesselBad)] 101 vesselBad (by decide)

/-- C8: eviction is monotone in the sweep time: with the same timeout and
fixed entity timestamps, every identifier surviving the sweep at a later
time `t2` also survives the sweep at an earlier time `t1`. -/
theorem eviction_monotone (m : VMap) (timeout t1 t2 : Int) (h : t1 < t2) :
    keys (removeStaleVessels t2 timeout m) ⊆ keys (removeStaleVessels t1 timeout m) := by
  intro a ha
  simp only [keys, List.mem_map] at ha ⊢
  rcases ha with ⟨p, hp, rfl⟩
  rcases (mem_removeStaleVessels t2 timeout m p).mp hp with ⟨hm, t, ht, hlt⟩
  exact ⟨p, (mem_removeStaleVessels t1 timeout m p).mpr ⟨hm, t, ht, by omega⟩, rfl⟩

theorem eviction_monotone_witness :
    keys (removeStaleVessels 1704067325000 STALE_VESSEL_TIMEOUT_MS [(100, vesselT0)]) ⊆
      keys (removeStaleVessels 1704067310000 STALE_VESSEL_TIMEOUT_MS [(100, vesselT0)]) :=
  eviction_monotone [(100, vesselT0)] STALE_VESSEL_TIMEOUT_MS 1704067310000 1704067325000
    (by decide)

/-- The viewport of the stale-completion scenario before the change. -/
def bboxV1 : Bbox := { minLon := -123, minLat := 37, maxLon := -122, maxLat := 38 }

/-- The viewport of the stale-completion scenario after the change. -/
def bboxV2 : Bbox := { minLon := -100, minLat := 40, maxLon := -99, maxLat := 41 }

/-- The vessel delivered by the in-flight fetch of the C1 scenario. -/
def vesselC1 : Vessel :=
  { mmsi := 100, latitude := 10, longitude := 20, last_updated := "2024-01-01T00:00:10Z" }

/-- The component state of the C1 scenario: Active at zoom 13 over
viewport V1, empty store, null cursor. -/
def activeStateV1 : ComponentState :=
  { vessels := [], lastServerTime := none, zoom := 13, bbox := some bboxV1,
    isLoading := false, error := none }

/-- The response that resolves the in-flight fetch of the C1 scenario. -/
def responseC1 : FetchResponse :=
  { vessels := [vesselC1], server_time := "2024-01-01T00:00:20Z", is_delta := true }

/-- C1, evidence of the code bug: the controller is Active (the fetch guard
passes) and a fetch is in flight; the viewport then changes to zoom 10,
below the threshold, so `handleRegionDidChange` runs `clearAll` (store
empty, cursor null); but when the in-flight fetch resolves, its `await`
continuation has no staleness or activity check, so it merges the stale
vessel list into the cleared store and writes the stale server time to the
cursor — the store does not remain empty and the cursor does not remain
null, against the claim. -/
theorem stale_completion_applied_after_inactive :
    fetchEligible activeStateV1 = true ∧
    (handleRegionDidChange (fetchBegin activeStateV1) 10 bboxV2).vessels = [] ∧
    (handleRegionDidChange (fetchBegin activeStateV1) 10 bboxV2).lastServerTime = none ∧
    (handleRegionDidChange (fetchBegin activeStateV1) 10 bboxV2).zoom < MIN_ZOOM_LEVEL ∧
    (fetchResolveSuccess (handleRegionDidChange (fetchBegin activeStateV1) 10 bboxV2)
        responseC1).vessels = [(100, vesselC1)] ∧
    (fetchResolveSuccess (handleRegionDidChange (fetchBegin activeStateV1) 10 bboxV2)
        responseC1).lastServerTime = some ("2024-01-01T00:00:20Z") := by
  refine ⟨by decide, by decide, by decide, by decide, by decide, by decide⟩

/-- C4: after every successful fetch the cursor equals the response's
reported server time, also when the vessel list is empty; the store is
merged through `updateMultipleVessels` exactly when the list is
non-empty. -/
theorem cursor_advances_on_success (s : ComponentState) (r : FetchResponse) :
    (fetchResolveSuccess (fetchBegin s) r).lastServerTime = some r.server_time ∧
    (r.vessels = [] → (fetchResolveSuccess (fetchBegin s) r).vessels = s.vessels) ∧
    (r.vessels ≠ [] →
      (fetchResolveSuccess (fetchBegin s) r).vessels =
        updateMultipleVessels r.vessels s.vessels) := by
  refine ⟨rfl, ?_, ?_⟩
  · intro h
    simp [fetchResolveSuccess, fetchBegin, h]
  · intro h
    simp [fetchResolveSuccess, fetchBegin, List.length_pos.mpr h]

/-- C5: when the fetch collaborator rejects, the `catch` branch leaves the
entity map and the cursor exactly as they were before the fetch began and
sets the user-visible error state (`finally` clears the loading flag). -/
theorem fetch_failure_preserves_state (s : ComponentState) :
    (fetchResolveFailure (fetchBegin s)).vessels = s.vessels ∧
    (fetchResolveFailure (fetchBegin s)).lastServerTime = s.lastServerTime ∧
    (fetchResolveFailure (fetchBegin s)).error = some ("Failed to fetch vessels") ∧
    (fetchResolveFailure (fetchBegin s)).isLoading = false :=
  ⟨rfl, rfl, rfl, rfl⟩

/-- C6, counterexample: a viewport change while the zoom stays at 13
(≥ threshold 12) re-runs the polling effect, whose dependency list contains
the bounding box and zoom; the old interval is cleared and `setInterval` is
called again, so the interval handle after the change differs from the one
before — the polling timer IS restarted, against the claim. -/
theorem viewport_change_restarts_timer :
    MIN_ZOOM_LEVEL ≤ (13 : Rat) ∧
    (pollingEffectCycle 13 (some bboxV2) { current := some 0, nextId := 1 }).current ≠
      some 0 ∧
    (pollingEffectCycle 13 (some bboxV2) { current := some 0, nextId := 1 }).current =
      some 1 := by
  refine ⟨by decide, by decide, by decide⟩

/-- C6, amended: on a viewport change while the controller stays Active
(zoom still at or above the threshold), the bounding box and zoom are
recorded and the store and cursor are NOT reset, but the polling timer IS
restarted: the effect re-run clears the previous interval and starts a
fresh one. -/
theorem active_viewport_change (s : ComponentState) (t : TimerState) (z : Rat) (b : Bbox)
    (h : MIN_ZOOM_LEVEL ≤ z) :
    (handleRegionDidChange s z b).vessels = s.vessels ∧
    (handleRegionDidChange s z b).lastServerTime = s.lastServerTime ∧
    (handleRegionDidChange s z b).bbox = some b ∧
    (handleRegionDidChange s z b).zoom = z ∧
    (pollingEffectCycle z (some b) t).current = some t.nextId := by
  have hz : ¬ z < MIN_ZOOM_LEVEL := not_lt.mpr h
  refine ⟨?_, ?_, ?_, ?_, ?_⟩ <;> simp [handleRegionDidChange, pollingEffectCycle, hz]

theorem active_viewport_change_witness :
    (handleRegionDidChange activeStateV1 13 bboxV2).vessels = activeStateV1.vessels ∧
    (handleRegionDidChange activeStateV1 13 bboxV2).lastServerTime =
      activeStateV1.lastServerTime ∧
    (handleRegionDidChange activeStateV1 13 bboxV2).bbox = some bboxV2 ∧
    (handleRegionDidChange activeStateV1 13 bboxV2).zoom = 13 ∧
    (pollingEffectCycle 13 (some bboxV2) { current := some 0, nextId := 1 }).current =
      some 1 :=
  active_viewport_change activeStateV1 { current := some 0, nextId := 1 } 13 bboxV2
    (by decide)

theorem samples_point (x step : Rat) : samples x x step = [x] := by
  have h1 : sampleCount x x step = 1 := by
    simp [sampleCount]
  rw [samples, h1]
  simp [List.range_succ]

/-- C9: `encodeGeohash` is a pure function of (lat, lon, precision) —
identical inputs give identical bucket identifiers — and on the degenerate
rectangle whose minimum and maximum corners coincide at an in-domain
coordinate, `calculateGeohashes` samples exactly that one point and returns
the one-element set holding `encodeGeohash lat lon precision`. -/
theorem tiler_point_cover (lat lon : Rat) (precision : Nat)
    (h1 : -90 ≤ lat) (h2 : lat ≤ 90) (h3 : -180 ≤ lon) (h4 : lon ≤ 180) :
    (∀ lat2 lon2 precision2, lat2 = lat → lon2 = lon → precision2 = precision →
      encodeGeohash lat2 lon2 precision2 = encodeGeohash lat lon precision) ∧
    calculateGeohashes lon lat lon lat precision = [encodeGeohash lat lon precision] := by
  refine ⟨?_, ?_⟩
  · rintro _ _ _ rfl rfl rfl
    rfl
  · rw [calculateGeohashes, samples_point, samples_point]
    simp [insertDedup, h1, h2, h3, h4]

theorem tiler_point_cover_witness :
    calculateGeohashes 20 10 20 10 5 = [encodeGeohash 10 20 5] :=
  (tiler_point_cover 10 20 5 (by norm_num) (by norm_num) (by norm_num) (by norm_num)).2
